import Mathlib

/-!
Shallow embedding of `WingmanSupport.jsx` (WingmanSupport-JSX repository):
the Team Special ability state machine, the per-variant attack generator
(`executeAttack`), the effect components' completion timing, and the
explosion-artifact cleanup sweeper.

Conventions of the embedding:
* JS numbers are modelled as `ℚ` (all arithmetic in the modelled code is
  exact on the inputs we reason about; no floating-point rounding issue is
  load-bearing for any claim).
* `Vector3` is a record of three rationals; `three.js` operations used by
  the source (`add`, `sub`, `multiplyScalar`, `lerpVectors`,
  `MathUtils.smoothstep`) are embedded field by field.
* `distanceTo p q < 2` is embedded as `distSq p q < 4`: both sides of the
  comparison are nonnegative, so comparing squared distances is exact and
  keeps the development executable (no square roots).
* `Math.random()` jitter is an injected parameter (`jitter`), since every
  verified property of the generator is jitter-independent.
* Presentation-only state (meshes, lights, the wingman rotation triple) is
  not part of the model; it is never read by the logic under verification.
-/

namespace Wingman

/-- A 3D point/vector with rational coordinates (three.js `Vector3`). -/
structure Vec3 where
  x : ℚ
  y : ℚ
  z : ℚ
deriving DecidableEq, Repr

namespace Vec3

/-- `Vector3.add` / `addVectors`. -/
def add (a b : Vec3) : Vec3 := ⟨a.x + b.x, a.y + b.y, a.z + b.z⟩

/-- `Vector3.multiplyScalar`. -/
def smul (c : ℚ) (v : Vec3) : Vec3 := ⟨c * v.x, c * v.y, c * v.z⟩

/-- `Vector3.lerpVectors v1 v2 t` (three.js: `v1 + (v2 - v1) * t`, per axis). -/
def lerp (a b : Vec3) (t : ℚ) : Vec3 :=
  ⟨a.x + (b.x - a.x) * t, a.y + (b.y - a.y) * t, a.z + (b.z - a.z) * t⟩

/-- Squared Euclidean distance (`distanceToSquared`); used in place of
`distanceTo` comparisons, which is exact for nonnegative thresholds. -/
def distSq (a b : Vec3) : ℚ :=
  (a.x - b.x) ^ 2 + (a.y - b.y) ^ 2 + (a.z - b.z) ^ 2

end Vec3

/-! ## WINGMAN_CONFIG constants (`WingmanSupport.jsx`, lines 8–39) -/

def TEAM_SPECIAL_COOLDOWN : ℚ := 45000
def SPAWN_OFFSET_BEHIND : ℚ := 40
def SPAWN_OFFSET_ABOVE : ℚ := 15
def ATTACK_DURATION : ℚ := 2000
def ESCAPE_DURATION : ℚ := 1500
def GATLING_FIRE_DURATION : ℚ := 800
def BEAM_LOCK_DURATION : ℚ := 100
def LIGHTNING_CHAIN_DURATION : ℚ := 600
def MISSILE_FLIGHT_TIME : ℚ := 500

/-- Speed constant local to `GatlingProjectile` (line 94). -/
def GATLING_SPEED : ℚ := 120

/-- The cleanup `setInterval` period, ms (line 573). -/
def CLEANUP_POLL_MS : ℚ := 100

/-- An externally supplied target: `{ id, position }`. -/
structure Enemy where
  id : String
  position : Vec3
deriving DecidableEq, Repr

/-- The phase of the ability state machine
(`'idle' | 'approach' | 'attack' | 'escape'`, line 409). -/
inductive Phase where
  | idle
  | approach
  | attack
  | escape
deriving DecidableEq, Repr

/-- One attack-effect descriptor produced by `executeAttack`; the four
object shapes pushed onto `effects` become a tagged union. -/
inductive AttackEffect where
  | gatling (id : String) (startPosition targetPosition : Vec3) (delay : ℚ)
  | beam (id : String) (startPosition targetPosition : Vec3) (delay duration : ℚ)
  | lightning (id : String) (positions : List Vec3) (delay duration : ℚ)
  | missile (id : String) (startPosition targetPosition : Vec3) (delay flightTime : ℚ)
deriving DecidableEq, Repr

/-- `startDelay` field of a descriptor. -/
def AttackEffect.delay : AttackEffect → ℚ
  | .gatling _ _ _ d => d
  | .beam _ _ _ d _ => d
  | .lightning _ _ d _ => d
  | .missile _ _ _ d _ => d

/-! ## Attack generator (`executeAttack`, lines 455–533)

The JS `forEach((enemy, i))` loops are embedded as index-carrying
recursions, which is the same iteration order with an explicit counter. -/

/-- Case 0 (Multi-Gatling): for each enemy, 5 projectiles with delays
`j*50 + i*30`, start jittered around the ship position. -/
def gatlingEffects (shipPos : Vec3) (jitter : ℕ → ℕ → Vec3) :
    List Enemy → ℕ → List AttackEffect
  | [], _ => []
  | e :: rest, i =>
      ((List.range 5).map fun j =>
        AttackEffect.gatling ("gatling-" ++ toString i ++ "-" ++ toString j)
          (shipPos.add (jitter i j)) e.position ((j : ℚ) * 50 + (i : ℚ) * 30))
        ++ gatlingEffects shipPos jitter rest (i + 1)

/-- Case 1 (Multi-Beam): one beam per enemy, delay `i*50`, fixed lock duration. -/
def beamEffects (shipPos : Vec3) : List Enemy → ℕ → List AttackEffect
  | [], _ => []
  | e :: rest, i =>
      AttackEffect.beam ("beam-" ++ toString i) shipPos e.position
        ((i : ℚ) * 50) BEAM_LOCK_DURATION
        :: beamEffects shipPos rest (i + 1)

/-- Case 3 (Precision Swarm): one missile per enemy, simultaneous launch,
grid-offset start `((i%3 - 1)*1.5, floor(i/3)*0.5, 0)`. -/
def missileEffects (shipPos : Vec3) : List Enemy → ℕ → List AttackEffect
  | [], _ => []
  | e :: rest, i =>
      AttackEffect.missile ("missile-" ++ toString i)
        (shipPos.add ⟨(((i % 3 : ℕ) : ℚ) - 1) * (3 / 2),
          ((i / 3 : ℕ) : ℚ) * (1 / 2), 0⟩)
        e.position 0 MISSILE_FLIGHT_TIME
        :: missileEffects shipPos rest (i + 1)

/-- The comparator of the case-2 sort: ascending distance from the ship
position (the JS comparator subtracts `distanceTo` values; on nonnegative
distances this orders exactly like squared distance). -/
def distLe (o : Vec3) (a b : Enemy) : Prop :=
  Vec3.distSq o a.position ≤ Vec3.distSq o b.position

instance (o : Vec3) (a b : Enemy) : Decidable (distLe o a b) := by
  unfold distLe; infer_instance

/-- `[...targetEnemies].sort(byDistance)`: a sort of the snapshot by
ascending distance from `o`. -/
def sortByDist (o : Vec3) (l : List Enemy) : List Enemy :=
  List.insertionSort (distLe o) l

/-- `executeAttack` (lines 455–533): dispatch on `selectedWingman`.
The JS `switch` has no `default`, so any other index yields no effects. -/
def executeAttack (selectedWingman : ℕ) (targetEnemies : List Enemy)
    (shipPos : Vec3) (jitter : ℕ → ℕ → Vec3) : List AttackEffect :=
  match selectedWingman with
  | 0 => gatlingEffects shipPos jitter targetEnemies 0
  | 1 => beamEffects shipPos targetEnemies 0
  | 2 =>
      if 0 < targetEnemies.length then
        [AttackEffect.lightning "lightning-chain"
          (shipPos :: (sortByDist shipPos targetEnemies).map (·.position))
          0 LIGHTNING_CHAIN_DURATION]
      else []
  | 3 => missileEffects shipPos targetEnemies 0
  | _ => []

/-! ## Ability state machine (`WingmanSupport`, lines 397–659) -/

/-- `MathUtils.smoothstep x lo hi` (three.js): clamp, then `t*t*(3-2t)`. -/
def smoothstep (x lo hi : ℚ) : ℚ :=
  if x ≤ lo then 0
  else if hi ≤ x then 1
  else
    let t := (x - lo) / (hi - lo)
    t * t * (3 - 2 * t)

/-- The component props read by the core logic. -/
structure Props where
  playerPosition : Vec3
  playerForward : Vec3
  enemies : List Enemy
  selectedWingman : ℕ
deriving DecidableEq, Repr

/-- Mutable ability state: React state plus the `phaseStartTime` /
`attackPosition` refs. Times are wall-clock milliseconds (`Date.now()`). -/
structure WingmanState where
  cooldown : ℚ
  isActive : Bool
  phase : Phase
  wingmanPosition : Vec3
  attackEffects : List AttackEffect
  targetEnemies : List Enemy
  phaseStartTime : ℚ
  attackPosition : Vec3
deriving DecidableEq, Repr

/-- The mount-time state (`useState` initializers, lines 407–418). -/
def initialState : WingmanState :=
  { cooldown := 0
    isActive := false
    phase := .idle
    wingmanPosition := ⟨0, 0, 0⟩
    attackEffects := []
    targetEnemies := []
    phaseStartTime := 0
    attackPosition := ⟨0, 0, 0⟩ }

/-- `getSpawnPosition` (lines 421–426): player position plus
`SPAWN_OFFSET_BEHIND` times the forward vector, raised by
`SPAWN_OFFSET_ABOVE`. (Reads the *current* props each call.) -/
def getSpawnPosition (props : Props) : Vec3 :=
  let spawn := props.playerPosition.add (Vec3.smul SPAWN_OFFSET_BEHIND props.playerForward)
  ⟨spawn.x, spawn.y + SPAWN_OFFSET_ABOVE, spawn.z⟩

/-- `getAttackPosition` (lines 429–434): player position shifted by
`+5` in x and `+2` in y; the forward direction is not read. -/
def getAttackPosition (playerPosition : Vec3) : Vec3 :=
  ⟨playerPosition.x + 5, playerPosition.y + 2, playerPosition.z⟩

/-- `triggerTeamSpecial` (lines 437–452): rejected (returns `false`, no
state change) when cooldown is positive, an activation is in progress, or
the enemy list is empty; otherwise captures the snapshot, computes the
spawn/attack poses, and enters the approach phase. The `onActivate`
callback only notifies the host and touches no ability state. -/
def triggerTeamSpecial (s : WingmanState) (props : Props) (now : ℚ) :
    Bool × WingmanState :=
  if 0 < s.cooldown ∨ s.isActive = true ∨ props.enemies = [] then
    (false, s)
  else
    (true,
      { s with
        isActive := true
        phase := .approach
        phaseStartTime := now
        wingmanPosition := getSpawnPosition props
        attackPosition := getAttackPosition props.playerPosition
        targetEnemies := props.enemies })

/-- Host-visible callbacks fired by the frame loop. -/
inductive Event where
  | enemiesDestroyed (ids : List String)
  | cooldownUpdate (current maxCooldown : ℚ)
deriving DecidableEq, Repr

/-- The `useFrame` body (lines 578–651): cooldown decrement first, then —
only while active — the phase switch. `now` is `Date.now()` at this frame
and `delta` the frame time in seconds. -/
def step (jitter : ℕ → ℕ → Vec3) (s : WingmanState) (props : Props)
    (now delta : ℚ) : WingmanState × List Event :=
  let cooldownPart : WingmanState × List Event :=
    if 0 < s.cooldown then
      let newCooldown := max 0 (s.cooldown - delta * 1000)
      ({ s with cooldown := newCooldown },
        [Event.cooldownUpdate newCooldown TEAM_SPECIAL_COOLDOWN])
    else (s, [])
  let s1 := cooldownPart.1
  let ev1 := cooldownPart.2
  if s1.isActive = false then (s1, ev1)
  else
    let elapsed := now - s1.phaseStartTime
    match s1.phase with
    | .idle => (s1, ev1)
    | .approach =>
        let approachProgress := min (elapsed / 1000) 1
        let spawnPos := getSpawnPosition props
        let newPos := Vec3.lerp spawnPos s1.attackPosition (smoothstep approachProgress 0 1)
        let s2 := { s1 with wingmanPosition := newPos }
        if 1 ≤ approachProgress then
          ({ s2 with
              phase := .attack
              phaseStartTime := now
              attackEffects :=
                executeAttack props.selectedWingman s2.targetEnemies s2.attackPosition jitter },
            ev1)
        else (s2, ev1)
    | .attack =>
        if ATTACK_DURATION < elapsed then
          ({ s1 with phase := .escape, phaseStartTime := now },
            ev1 ++ [Event.enemiesDestroyed (s1.targetEnemies.map (·.id))])
        else (s1, ev1)
    | .escape =>
        let escapeProgress := min (elapsed / ESCAPE_DURATION) 1
        let escapePos : Vec3 :=
          ⟨s1.attackPosition.x, s1.attackPosition.y + escapeProgress * 50,
            s1.attackPosition.z + escapeProgress * 30⟩
        let s2 := { s1 with wingmanPosition := escapePos }
        if 1 ≤ escapeProgress then
          ({ s2 with
              phase := .idle
              isActive := false
              cooldown := TEAM_SPECIAL_COOLDOWN
              attackEffects := []
              targetEnemies := [] },
            ev1)
        else (s2, ev1)

/-- Extract the payloads of `enemiesDestroyed` events. -/
def eliminatedIdLists (evs : List Event) : List (List String) :=
  evs.filterMap fun e =>
    match e with
    | .enemiesDestroyed ids => some ids
    | _ => none

/-- The reachable-state invariant of the machine: the cooldown is
nonnegative, `isActive` mirrors `phase ≠ idle`, and the cooldown is zero
throughout an activation (it is only set at escape exit, and activation
requires it to have reached zero). -/
def PhaseInv (s : WingmanState) : Prop :=
  0 ≤ s.cooldown ∧ (s.isActive = true ↔ s.phase ≠ .idle) ∧
    (s.isActive = true → s.cooldown = 0)

instance : DecidablePred PhaseInv := fun s => by
  unfold PhaseInv; infer_instance

/-- The escape-exit condition of a frame: active, in the escape phase,
with escape progress saturated. -/
def escapeExit (s : WingmanState) (now : ℚ) : Prop :=
  s.isActive = true ∧ s.phase = .escape ∧
    1 ≤ min ((now - s.phaseStartTime) / ESCAPE_DURATION) 1

/-! ## Gatling projectile frame dynamics (`GatlingProjectile`, lines 89–129)

Once its delay elapses, the projectile stores the normalized direction to
the target and, every frame, moves `GATLING_SPEED * delta` along it; it
signals `onComplete` when its distance to the target drops below `2`
(squared distance below `4`). -/

/-- One `useFrame` movement step of the projectile (line 110). -/
def gatlingFrameUpdate (pos direction : Vec3) (delta : ℚ) : Vec3 :=
  pos.add (Vec3.smul (GATLING_SPEED * delta) direction)

/-- Projectile position after `k` frames of constant frame time `delta`,
starting at `start` with stored unit direction `direction`. -/
def gatlingPosAfter (start direction : Vec3) (delta : ℚ) : ℕ → Vec3
  | 0 => start
  | k + 1 => gatlingFrameUpdate (gatlingPosAfter start direction delta k) direction delta

/-- The completion test of line 114–117: `distanceTo target < 2`. -/
def gatlingHits (pos target : Vec3) : Prop := Vec3.distSq pos target < 4

instance (pos target : Vec3) : Decidable (gatlingHits pos target) := by
  unfold gatlingHits; infer_instance

/-! ## Effect completion deadlines

Scheduled completion time (ms after Attack-phase entry) of each
time-gated effect component, read off the component implementations:
* `BeamEffect` (lines 134–151): `onComplete` after `delay + duration`;
* `LightningChain` (lines 187–208): explode after `delay + duration`,
  `onComplete` 500 ms later;
* `Missile` (lines 299–333): explodes at `delay + flightTime`, then
  `onComplete` after a further 300 ms.
A gatling projectile completes on proximity, not on a clock, so it has no
input-independent deadline (`none`). -/
def effectCompletionTime : AttackEffect → Option ℚ
  | .gatling _ _ _ _ => none
  | .beam _ _ _ delay duration => some (delay + duration)
  | .lightning _ _ delay duration => some (delay + duration + 500)
  | .missile _ _ _ delay flightTime => some (delay + flightTime + 300)

/-! ## Explosion artifacts and the cleanup sweeper (lines 536–575)

An artifact id is a dash-joined string; we model it as its list of
dash-separated tokens (none of the joined pieces contains a dash, so JS
`id.split('-')` returns exactly these tokens), each token a list of
characters. `Date.now()` values are naturals. -/

/-- Decimal rendering of a natural, as JS string interpolation produces. -/
def natDecimal (n : ℕ) : List Char :=
  ((Nat.digits 10 n).map Nat.digitChar).reverse

/-- Numeric value of a decimal digit character. -/
def digitVal (c : Char) : ℕ := c.toNat - 48

/-- JS `parseInt` on a token of decimal digits. -/
def jsParseInt (cs : List Char) : ℕ :=
  Nat.ofDigits 10 ((cs.map digitVal).reverse)

/-- A cosmetic explosion burst artifact. -/
structure ExplosionArtifact where
  idTokens : List (List Char)
  position : Vec3
  color : String
deriving DecidableEq

/-- Artifact pushed by `handleEffectComplete` (lines 542–546):
id `explosion-${Date.now()}-${Math.random()}`; the rendered random
number is opaque here (it contains no leading dash, so the second token
is still the timestamp). -/
def effectCompleteArtifact (now : ℕ) (randomTokens : List (List Char))
    (targetPos : Vec3) (color : String) : ExplosionArtifact :=
  ⟨"explosion".toList :: natDecimal now :: randomTokens, targetPos, color⟩

/-- Artifact pushed by `handleLightningComplete` (lines 557–561):
id `explosion-${Date.now()}-${i}`. -/
def lightningArtifact (now : ℕ) (i : ℕ) (pos : Vec3) : ExplosionArtifact :=
  ⟨["explosion".toList, natDecimal now, natDecimal i], pos, "#ffff00"⟩

/-- The retention test of the sweeper (lines 569–572): parse the second
dash token of the id and keep the artifact while
`Date.now() - parseInt(token) < 600`. (JS subtraction can be negative,
which also passes the `< 600` test; truncated `ℕ` subtraction gives `0`
in exactly those cases, hence the same verdict.) -/
def cleanupKeep (now : ℕ) (e : ExplosionArtifact) : Bool :=
  decide (now - jsParseInt (e.idTokens.getD 1 []) < 600)

/-- One sweep of the `setInterval(…, 100)` cleanup (lines 567–575). -/
def cleanupSweep (now : ℕ) (exps : List ExplosionArtifact) : List ExplosionArtifact :=
  exps.filter (cleanupKeep now)

/-! ## Spec-side definitions for refinement comparisons -/

/-- Modelled from the words of claim C7 (spec §4.1): the Approaching-tick
position is the blend from the spawn pose *computed once at acceptance* to
the attack pose, at eased progress `min (elapsed / 1000) 1` with the
zero-derivative-at-endpoints cubic `p² (3 - 2p)`. -/
def specApproachPosOnceSpawn (spawnAtAcceptance attackPose : Vec3) (elapsed : ℚ) : Vec3 :=
  let p := min (elapsed / 1000) 1
  Vec3.lerp spawnAtAcceptance attackPose (p * p * (3 - 2 * p))

/-- The amended spec formula: same blend, but from the spawn pose
recomputed from the *current* reference pose. -/
def specApproachPosCurrentSpawn (props : Props) (attackPose : Vec3) (elapsed : ℚ) : Vec3 :=
  let p := min (elapsed / 1000) 1
  Vec3.lerp (getSpawnPosition props) attackPose (p * p * (3 - 2 * p))

/-- Zero jitter, for concrete witnesses (jitter never affects a verified
property). -/
def jitter0 : ℕ → ℕ → Vec3 := fun _ _ => ⟨0, 0, 0⟩

/-! ## Supporting lemmas -/

theorem length_gatlingEffects (shipPos : Vec3) (jitter : ℕ → ℕ → Vec3) :
    ∀ (l : List Enemy) (i : ℕ), (gatlingEffects shipPos jitter l i).length = 5 * l.length := by
  intro l
  induction l with
  | nil => intro i; simp [gatlingEffects]
  | cons e rest ih =>
      intro i
      simp [gatlingEffects, ih (i + 1)]
      ring

theorem length_beamEffects (shipPos : Vec3) :
    ∀ (l : List Enemy) (i : ℕ), (beamEffects shipPos l i).length = l.length := by
  intro l
  induction l with
  | nil => intro i; simp [beamEffects]
  | cons e rest ih => intro i; simp [beamEffects, ih (i + 1)]

theorem length_missileEffects (shipPos : Vec3) :
    ∀ (l : List Enemy) (i : ℕ), (missileEffects shipPos l i).length = l.length := by
  intro l
  induction l with
  | nil => intro i; simp [missileEffects]
  | cons e rest ih => intro i; simp [missileEffects, ih (i + 1)]

theorem phaseInv_initialState : PhaseInv initialState := by
  refine ⟨le_refl 0, ?_, fun _ => rfl⟩
  simp [initialState]

theorem phaseInv_trigger (s : WingmanState) (props : Props) (now : ℚ)
    (h : PhaseInv s) : PhaseInv (triggerTeamSpecial s props now).2 := by
  obtain ⟨h0, hiff, hc0⟩ := h
  unfold triggerTeamSpecial
  split
  · exact ⟨h0, hiff, hc0⟩
  · rename_i hcond
    push_neg at hcond
    refine ⟨h0, by simp, fun _ => le_antisymm hcond.1 h0⟩

theorem phaseInv_step (jitter : ℕ → ℕ → Vec3) (s : WingmanState) (props : Props)
    (now delta : ℚ) (h : PhaseInv s) : PhaseInv (step jitter s props now delta).1 := by
  obtain ⟨h0, hiff, hc0⟩ := h
  by_cases hA : s.isActive = true
  · have hc : s.cooldown = 0 := hc0 hA
    have hnotpos : ¬ 0 < s.cooldown := by rw [hc]; exact lt_irrefl 0
    have hne : s.phase ≠ .idle := hiff.mp hA
    simp only [step, hnotpos, if_false, hA, Bool.true_eq_false]
    cases hp : s.phase with
    | idle => exact ⟨h0, hiff, hc0⟩
    | approach =>
        dsimp only
        split
        · exact ⟨h0, by simp, fun _ => hc⟩
        · exact ⟨h0, by simp [hA], fun _ => hc⟩
    | attack =>
        dsimp only
        split
        · exact ⟨h0, by simp, fun _ => hc⟩
        · exact ⟨h0, by simp [hA, hne], fun _ => hc⟩
    | escape =>
        dsimp only
        split
        · exact ⟨by norm_num [TEAM_SPECIAL_COOLDOWN], by simp, fun hcontra => by
            exact absurd hcontra (by simp)⟩
        · exact ⟨h0, by simp [hA], fun _ => hc⟩
  · have hA' : s.isActive = false := by
      cases hb : s.isActive
      · rfl
      · exact absurd hb hA
    simp only [step, hA']
    split
    · exact ⟨le_max_left 0 _, by simpa [hA'] using hiff, by simp [hA']⟩
    · exact ⟨h0, hiff, hc0⟩

/-! ## Claims -/

/-- C4: for every target snapshot of size N, origin point, and jitter, the
attack generator produces exactly 5N descriptors for RapidBurst
(`selectedWingman = 0`), N for PrecisionBeam (`1`), N for HomingSwarm
(`3`), and for ChainedArc (`2`) exactly 1 descriptor when N ≥ 1 and 0
when N = 0. -/
theorem c4_descriptor_counts (targets : List Enemy) (o : Vec3) (jitter : ℕ → ℕ → Vec3) :
    (executeAttack 0 targets o jitter).length = 5 * targets.length ∧
    (executeAttack 1 targets o jitter).length = targets.length ∧
    (executeAttack 3 targets o jitter).length = targets.length ∧
    (executeAttack 2 targets o jitter).length = if targets.length = 0 then 0 else 1 := by
  refine ⟨length_gatlingEffects o jitter targets 0, length_beamEffects o targets 0,
    length_missileEffects o targets 0, ?_⟩
  unfold executeAttack
  rcases targets with _ | ⟨e, rest⟩ <;> simp

/-- C9: whenever an Activate request is accepted, the recorded attack pose
is the reference position translated by exactly +5 on world x and +2 on
world y, for every reference pose — the forward direction does not enter
the computation. -/
theorem c9_attack_pose (s : WingmanState) (props : Props) (now : ℚ)
    (hacc : (triggerTeamSpecial s props now).1 = true) :
    (triggerTeamSpecial s props now).2.attackPosition =
      ⟨props.playerPosition.x + 5, props.playerPosition.y + 2, props.playerPosition.z⟩ := by
  by_cases hcond : 0 < s.cooldown ∨ s.isActive = true ∨ props.enemies = []
  · rw [triggerTeamSpecial, if_pos hcond] at hacc
    exact absurd hacc (by simp)
  · rw [triggerTeamSpecial, if_neg hcond]
    rfl

/-- C9 witness: a concrete accepted activation, with a nonzero forward
direction, records attack pose (5, 2, 0) from player position (0, 0, 0). -/
theorem c9_attack_pose_witness :
    (triggerTeamSpecial initialState
      ⟨⟨0, 0, 0⟩, ⟨0, 0, -1⟩, [⟨"a", ⟨0, 0, -30⟩⟩], 0⟩ 0).2.attackPosition =
      ⟨(0 : ℚ) + 5, (0 : ℚ) + 2, 0⟩ :=
  c9_attack_pose initialState ⟨⟨0, 0, 0⟩, ⟨0, 0, -1⟩, [⟨"a", ⟨0, 0, -30⟩⟩], 0⟩ 0 (by decide)

/-- C2: on any reachable state (satisfying the machine invariant), calling
Activate while the phase is not Idle, or while the cooldown is positive,
or with an empty target list, returns `false` and leaves the entire
ability state — in particular phase, cooldown, and target snapshot —
unchanged. -/
theorem c2_activation_rejection (s : WingmanState) (props : Props) (now : ℚ)
    (hinv : PhaseInv s)
    (hrej : s.phase ≠ .idle ∨ 0 < s.cooldown ∨ props.enemies = []) :
    triggerTeamSpecial s props now = (false, s) := by
  have hcond : 0 < s.cooldown ∨ s.isActive = true ∨ props.enemies = [] := by
    rcases hrej with h | h | h
    · exact Or.inr (Or.inl (hinv.2.1.mpr h))
    · exact Or.inl h
    · exact Or.inr (Or.inr h)
  unfold triggerTeamSpecial
  simp [hcond]

/-- C2 witness: concrete rejection — phase Attack (activation in
progress), zero cooldown, non-empty target list: the call fails and
returns the state unchanged. -/
theorem c2_activation_rejection_witness :
    triggerTeamSpecial
      { cooldown := 0, isActive := true, phase := .attack,
        wingmanPosition := ⟨0, 0, 0⟩, attackEffects := [],
        targetEnemies := [⟨"a", ⟨0, 0, -30⟩⟩], phaseStartTime := 0,
        attackPosition := ⟨5, 2, 0⟩ }
      ⟨⟨0, 0, 0⟩, ⟨0, 0, -1⟩, [⟨"b", ⟨1, 1, -20⟩⟩], 2⟩ 700 =
      (false,
        { cooldown := 0, isActive := true, phase := .attack,
          wingmanPosition := ⟨0, 0, 0⟩, attackEffects := [],
          targetEnemies := [⟨"a", ⟨0, 0, -30⟩⟩], phaseStartTime := 0,
          attackPosition := ⟨5, 2, 0⟩ }) :=
  c2_activation_rejection _ _ 700
    ⟨le_refl 0, by simp, fun _ => rfl⟩ (Or.inl (by simp))

/-- A concrete mid-activation state in the Attack phase, used by witnesses:
two snapshotted targets "a" and "b" (the spec §8 scenario). -/
def wAttackState : WingmanState :=
  { cooldown := 0
    isActive := true
    phase := .attack
    wingmanPosition := ⟨5, 2, 0⟩
    attackEffects := []
    targetEnemies := [⟨"a", ⟨0, 0, -30⟩⟩, ⟨"b", ⟨5, 2, -35⟩⟩]
    phaseStartTime := 0
    attackPosition := ⟨5, 2, 0⟩ }

/-- Concrete props for witnesses. -/
def wProps : Props := ⟨⟨0, 0, 0⟩, ⟨0, 0, -1⟩, [⟨"a", ⟨0, 0, -30⟩⟩], 0⟩

/-- C1: on the frame performing the Attack→Escape transition (active,
Attack phase, elapsed beyond the dwell), the step emits exactly one
elimination notification; for a non-empty snapshot with pairwise distinct
ids its payload is the snapshot's id list — length N, each snapshot id
occurring exactly once — for every ability variant (the `props`, and so
`selectedWingman`, are universally quantified). -/
theorem c1_elimination_notification (jitter : ℕ → ℕ → Vec3) (s : WingmanState)
    (props : Props) (now delta : ℚ)
    (hA : s.isActive = true) (hp : s.phase = .attack)
    (ht : ATTACK_DURATION < now - s.phaseStartTime)
    (_hne : s.targetEnemies ≠ [])
    (hnodup : (s.targetEnemies.map (·.id)).Nodup) :
    eliminatedIdLists (step jitter s props now delta).2 = [s.targetEnemies.map (·.id)] ∧
    (s.targetEnemies.map (·.id)).length = s.targetEnemies.length ∧
    (∀ tid ∈ s.targetEnemies.map (·.id), (s.targetEnemies.map (·.id)).count tid = 1) := by
  refine ⟨?_, by simp, fun tid htid => List.count_eq_one_of_mem hnodup htid⟩
  by_cases hcd : 0 < s.cooldown <;>
    simp [step, hcd, hA, hp, ht, eliminatedIdLists]

/-- C1 witness: from the concrete Attack-phase state with snapshot
`["a", "b"]`, the transition frame at 2001 ms emits exactly the
notification `["a", "b"]`, of length 2, each id once. -/
theorem c1_elimination_notification_witness :
    eliminatedIdLists (step jitter0 wAttackState wProps 2001 (1 / 60)).2 =
      [wAttackState.targetEnemies.map (·.id)] ∧
    (wAttackState.targetEnemies.map (·.id)).length = wAttackState.targetEnemies.length ∧
    (∀ tid ∈ wAttackState.targetEnemies.map (·.id),
      (wAttackState.targetEnemies.map (·.id)).count tid = 1) :=
  c1_elimination_notification jitter0 wAttackState wProps 2001 (1 / 60)
    (by decide) (by decide) (by norm_num [ATTACK_DURATION, wAttackState])
    (by decide) (by decide)

/-- C5: on reachable states (machine invariant): (1) on any tick with
positive elapsed time while the cooldown is positive, the cooldown becomes
`max 0 (cooldown - delta·1000)` — a strict decrease clamped at zero;
(2) on any tick with nonnegative elapsed time the cooldown never
increases, except that the Escape-exit frame assigns the configured
maximum; (3) the Activate operation never changes the cooldown. -/
theorem c5_cooldown_monotonicity (jitter : ℕ → ℕ → Vec3) (s : WingmanState)
    (props : Props) (now delta : ℚ) (hinv : PhaseInv s) :
    (0 < s.cooldown → 0 < delta →
      (step jitter s props now delta).1.cooldown = max 0 (s.cooldown - delta * 1000) ∧
      (step jitter s props now delta).1.cooldown < s.cooldown) ∧
    (0 ≤ delta →
      (step jitter s props now delta).1.cooldown ≤ s.cooldown ∨
        (escapeExit s now ∧
          (step jitter s props now delta).1.cooldown = TEAM_SPECIAL_COOLDOWN)) ∧
    (triggerTeamSpecial s props now).2.cooldown = s.cooldown := by
  obtain ⟨h0, hiff, hc0⟩ := hinv
  refine ⟨?_, ?_, ?_⟩
  · intro hc hd
    have hA' : s.isActive = false := by
      cases hb : s.isActive
      · rfl
      · rw [hc0 hb] at hc; exact absurd hc (lt_irrefl 0)
    have hlt : max 0 (s.cooldown - delta * 1000) < s.cooldown :=
      max_lt hc (by linarith)
    constructor <;> simp [step, hc, hA', hlt]
  · intro hd
    by_cases hA : s.isActive = true
    · have hc : s.cooldown = 0 := hc0 hA
      have hnotpos : ¬ 0 < s.cooldown := by rw [hc]; exact lt_irrefl 0
      simp only [step, hnotpos, if_false, hA, Bool.true_eq_false]
      cases hp : s.phase with
      | idle => exact Or.inl (le_refl _)
      | approach => dsimp only; split <;> exact Or.inl (le_refl _)
      | attack => dsimp only; split <;> exact Or.inl (le_refl _)
      | escape =>
          dsimp only
          split
          · rename_i hprog
            exact Or.inr ⟨⟨hA, hp, hprog⟩, rfl⟩
          · exact Or.inl (le_refl _)
    · have hA' : s.isActive = false := by
        cases hb : s.isActive
        · rfl
        · exact absurd hb hA
      by_cases hcd : 0 < s.cooldown
      · refine Or.inl ?_
        have : max 0 (s.cooldown - delta * 1000) ≤ s.cooldown :=
          max_le (le_of_lt hcd) (by linarith)
        simpa [step, hcd, hA'] using this
      · exact Or.inl (by simp [step, hcd, hA'])
  · unfold triggerTeamSpecial
    split <;> rfl

/-- C5 witness: a concrete idle state with 500 ms cooldown remaining and a
100 ms tick satisfies the invariant and all three conjuncts. -/
theorem c5_cooldown_monotonicity_witness :
    PhaseInv { initialState with cooldown := 500 } ∧
    ((0 < ({ initialState with cooldown := 500 } : WingmanState).cooldown → 0 < (1 / 10 : ℚ) →
      (step jitter0 { initialState with cooldown := 500 } wProps 3000 (1 / 10)).1.cooldown =
        max 0 (({ initialState with cooldown := 500 } : WingmanState).cooldown - (1 / 10) * 1000) ∧
      (step jitter0 { initialState with cooldown := 500 } wProps 3000 (1 / 10)).1.cooldown <
        ({ initialState with cooldown := 500 } : WingmanState).cooldown) ∧
    ((0 : ℚ) ≤ 1 / 10 →
      (step jitter0 { initialState with cooldown := 500 } wProps 3000 (1 / 10)).1.cooldown ≤
        ({ initialState with cooldown := 500 } : WingmanState).cooldown ∨
        (escapeExit { initialState with cooldown := 500 } 3000 ∧
          (step jitter0 { initialState with cooldown := 500 } wProps 3000 (1 / 10)).1.cooldown =
            TEAM_SPECIAL_COOLDOWN)) ∧
    (triggerTeamSpecial { initialState with cooldown := 500 } wProps 3000).2.cooldown =
      ({ initialState with cooldown := 500 } : WingmanState).cooldown) :=
  ⟨by decide,
    c5_cooldown_monotonicity jitter0 { initialState with cooldown := 500 } wProps 3000 (1 / 10)
      (by decide)⟩

theorem smoothstep_eq_cubic (p : ℚ) (h0 : 0 ≤ p) (h1 : p ≤ 1) :
    smoothstep p 0 1 = p * p * (3 - 2 * p) := by
  unfold smoothstep
  split
  · rename_i hle
    have hp : p = 0 := le_antisymm hle h0
    rw [hp]; ring
  · split
    · rename_i hge
      have hp : p = 1 := le_antisymm h1 hge
      rw [hp]; norm_num
    · dsimp only
      ring_nf

/-- The state produced by accepting an activation at time 0 with the
player at the origin facing -z (spawn pose (0, 15, -40), attack pose
(5, 2, 0)); `trigger_accepts_wProps` proves it is the trigger's output. -/
def c7AcceptedState : WingmanState :=
  { cooldown := 0
    isActive := true
    phase := .approach
    wingmanPosition := ⟨0, 15, -40⟩
    attackEffects := []
    targetEnemies := [⟨"a", ⟨0, 0, -30⟩⟩]
    phaseStartTime := 0
    attackPosition := ⟨5, 2, 0⟩ }

theorem trigger_accepts_wProps :
    triggerTeamSpecial initialState wProps 0 = (true, c7AcceptedState) := by
  unfold triggerTeamSpecial
  rw [if_neg (by simp [initialState, wProps])]
  simp only [Prod.mk.injEq, true_and]
  unfold initialState wProps c7AcceptedState getSpawnPosition getAttackPosition
  simp [Vec3.add, Vec3.smul, SPAWN_OFFSET_BEHIND, SPAWN_OFFSET_ABOVE]

/-- C7 counterexample: accept an activation at time 0 with the player at
the origin; by the 500 ms Approaching tick the player has moved to
(100, 0, 0). The code's new unit position (blended from the spawn pose
recomputed from the current player pose) differs from the claim's formula
(blended from the spawn pose captured at acceptance): (52.5, 8.5, -20)
versus (2.5, 8.5, -20). -/
theorem c7_spawn_counterexample :
    ((step jitter0 c7AcceptedState
        ⟨⟨100, 0, 0⟩, ⟨0, 0, -1⟩, [⟨"a", ⟨0, 0, -30⟩⟩], 0⟩ 500 (1 / 60)).1.wingmanPosition =
      specApproachPosOnceSpawn c7AcceptedState.wingmanPosition
        c7AcceptedState.attackPosition (500 - c7AcceptedState.phaseStartTime)) = False := by
  apply eq_false
  have hcode :
      (step jitter0 c7AcceptedState
        ⟨⟨100, 0, 0⟩, ⟨0, 0, -1⟩, [⟨"a", ⟨0, 0, -30⟩⟩], 0⟩ 500 (1 / 60)).1.wingmanPosition =
        ⟨105 / 2, 17 / 2, -20⟩ := by
    unfold step c7AcceptedState
    norm_num [getSpawnPosition, Vec3.add, Vec3.smul, Vec3.lerp, smoothstep,
      SPAWN_OFFSET_BEHIND, SPAWN_OFFSET_ABOVE]
  have hspec :
      specApproachPosOnceSpawn c7AcceptedState.wingmanPosition
        c7AcceptedState.attackPosition (500 - c7AcceptedState.phaseStartTime) =
        ⟨5 / 2, 17 / 2, -20⟩ := by
    unfold specApproachPosOnceSpawn c7AcceptedState
    norm_num [Vec3.lerp]
  rw [hcode, hspec]
  simp only [Vec3.mk.injEq, not_and]
  intro hx
  norm_num at hx

/-- C7 (amended): the spawn pose is also computed at acceptance (the unit
is placed there), but on every Approaching-phase tick with nonnegative
elapsed time the unit position is the blend from the spawn pose
*recomputed from the current reference pose* (same offset formula) to the
attack pose frozen at acceptance, at eased progress
`min (elapsed / 1000) 1` with the smoothstep cubic `p²(3-2p)` (zero
derivative at both endpoints). -/
theorem c7_approach_blend (jitter : ℕ → ℕ → Vec3) (s : WingmanState) (props : Props)
    (now delta : ℚ) (hA : s.isActive = true) (hp : s.phase = .approach)
    (helapsed : 0 ≤ now - s.phaseStartTime) :
    (step jitter s props now delta).1.wingmanPosition =
      specApproachPosCurrentSpawn props s.attackPosition (now - s.phaseStartTime) := by
  have hp0 : 0 ≤ min ((now - s.phaseStartTime) / 1000) 1 :=
    le_min (div_nonneg helapsed (by norm_num)) zero_le_one
  have hp1 : min ((now - s.phaseStartTime) / 1000) 1 ≤ 1 := min_le_right _ _
  have hcube := smoothstep_eq_cubic _ hp0 hp1
  by_cases hcd : 0 < s.cooldown <;>
    · simp only [step, hcd, if_true, if_false, hA, Bool.true_eq_false, hp]
      split <;> simp [specApproachPosCurrentSpawn, hcube]

/-- C7 witness: with the player stationary at the origin, the accepted
activation's 500 ms Approaching tick places the unit exactly at the
amended blend formula. -/
theorem c7_approach_blend_witness :
    (step jitter0 c7AcceptedState wProps 500 (1 / 60)).1.wingmanPosition =
      specApproachPosCurrentSpawn wProps c7AcceptedState.attackPosition
        (500 - c7AcceptedState.phaseStartTime) :=
  c7_approach_blend jitter0 c7AcceptedState wProps 500 (1 / 60)
    rfl rfl (by norm_num [c7AcceptedState])

instance (o : Vec3) : IsTotal Enemy (distLe o) :=
  ⟨fun _ _ => le_total _ _⟩

instance (o : Vec3) : IsTrans Enemy (distLe o) :=
  ⟨fun _ _ _ => le_trans⟩

/-- C8: for ChainedArc with a non-empty snapshot, the generator emits the
single chain descriptor with start delay 0, the fixed chain duration, and
position sequence = origin followed by the snapshot's target positions
sorted by ascending distance from the origin (the sorted list is a
permutation of the snapshot and pairwise ordered by distance). -/
theorem c8_chain_descriptor (targets : List Enemy) (o : Vec3) (jitter : ℕ → ℕ → Vec3)
    (hne : 0 < targets.length) :
    executeAttack 2 targets o jitter =
      [AttackEffect.lightning "lightning-chain"
        (o :: (sortByDist o targets).map (·.position)) 0 LIGHTNING_CHAIN_DURATION] ∧
    (sortByDist o targets).Perm targets ∧
    List.Pairwise (fun p q => Vec3.distSq o p ≤ Vec3.distSq o q)
      ((sortByDist o targets).map (·.position)) := by
  refine ⟨by simp [executeAttack, hne], List.perm_insertionSort _ _, ?_⟩
  have hs : List.Sorted (distLe o) (sortByDist o targets) :=
    List.sorted_insertionSort _ _
  exact List.Pairwise.map _ (fun a b h => h) hs

/-- C8 witness: two concrete targets given out of distance order from the
origin (5, 2, 0) are emitted as one chain descriptor whose position
sequence visits the nearer one first. -/
theorem c8_chain_descriptor_witness :
    executeAttack 2 [⟨"far", ⟨0, 0, -30⟩⟩, ⟨"near", ⟨5, 2, -3⟩⟩] ⟨5, 2, 0⟩ jitter0 =
      [AttackEffect.lightning "lightning-chain"
        ((⟨5, 2, 0⟩ : Vec3) ::
          (sortByDist ⟨5, 2, 0⟩ [⟨"far", ⟨0, 0, -30⟩⟩, ⟨"near", ⟨5, 2, -3⟩⟩]).map (·.position))
        0 LIGHTNING_CHAIN_DURATION] ∧
    (sortByDist ⟨5, 2, 0⟩ [⟨"far", ⟨0, 0, -30⟩⟩, ⟨"near", ⟨5, 2, -3⟩⟩]).Perm
      [⟨"far", ⟨0, 0, -30⟩⟩, ⟨"near", ⟨5, 2, -3⟩⟩] ∧
    List.Pairwise (fun p q => Vec3.distSq ⟨5, 2, 0⟩ p ≤ Vec3.distSq ⟨5, 2, 0⟩ q)
      ((sortByDist ⟨5, 2, 0⟩ [⟨"far", ⟨0, 0, -30⟩⟩, ⟨"near", ⟨5, 2, -3⟩⟩]).map (·.position)) :=
  c8_chain_descriptor [⟨"far", ⟨0, 0, -30⟩⟩, ⟨"near", ⟨5, 2, -3⟩⟩] ⟨5, 2, 0⟩ jitter0
    (by decide)

theorem missile_completion (o : Vec3) :
    ∀ (l : List Enemy) (i : ℕ), ∀ e ∈ missileEffects o l i,
      effectCompletionTime e = some 800 := by
  intro l
  induction l with
  | nil => intro i e he; simp [missileEffects] at he
  | cons a rest ih =>
      intro i e he
      simp only [missileEffects, List.mem_cons] at he
      rcases he with rfl | he
      · norm_num [effectCompletionTime, MISSILE_FLIGHT_TIME]
      · exact ih (i + 1) e he

theorem beam_completion (o : Vec3) :
    ∀ (l : List Enemy) (i : ℕ), ∀ e ∈ beamEffects o l i,
      ∃ t, effectCompletionTime e = some t ∧ t < ((i : ℚ) + l.length) * 50 + 100 := by
  intro l
  induction l with
  | nil => intro i e he; simp [beamEffects] at he
  | cons a rest ih =>
      intro i e he
      simp only [beamEffects, List.mem_cons] at he
      rcases he with rfl | he
      · refine ⟨(i : ℚ) * 50 + 100, by norm_num [effectCompletionTime, BEAM_LOCK_DURATION], ?_⟩
        have h0 : (0 : ℚ) ≤ (rest.length : ℚ) := Nat.cast_nonneg _
        push_cast [List.length_cons]
        linarith
      · obtain ⟨t, ht, hlt⟩ := ih (i + 1) e he
        refine ⟨t, ht, ?_⟩
        push_cast [List.length_cons] at hlt ⊢
        linarith

/-- Any beam list over a non-empty snapshot holds a descriptor whose
completion time is at least that of the last target's beam. -/
theorem beam_last_delay (o : Vec3) :
    ∀ (l : List Enemy) (i : ℕ), l ≠ [] →
      ∃ e ∈ beamEffects o l i,
        ∃ t, effectCompletionTime e = some t ∧
          ((i : ℚ) + l.length - 1) * 50 + 100 ≤ t := by
  intro l
  induction l with
  | nil => intro i h; exact absurd rfl h
  | cons a rest ih =>
      intro i _
      rcases rest with _ | ⟨b, rest2⟩
      · refine ⟨_, List.mem_cons_self _ _,
          (i : ℚ) * 50 + 100, by norm_num [effectCompletionTime, BEAM_LOCK_DURATION], ?_⟩
        push_cast [List.length_cons, List.length_nil]
        linarith
      · obtain ⟨e, he, t, ht, hge⟩ := ih (i + 1) (by simp)
        refine ⟨e, List.mem_cons_of_mem _ he, t, ht, ?_⟩
        push_cast [List.length_cons, List.length_nil] at hge ⊢
        linarith

/-- The concrete 40-target snapshot of the C6 counterexample. -/
def beam40Targets : List Enemy :=
  (List.range 40).map fun i => ⟨"e" ++ toString i, ⟨0, 0, -30⟩⟩

/-- C6 counterexample: for the PrecisionBeam variant with a 40-target
snapshot, the generator emits a beam whose scheduled completion time
(39·50 + 100 = 2050 ms) exceeds the fixed 2000 ms Attack-phase dwell, so
the dwell does not exceed every effect's completion time. -/
theorem c6_dwell_counterexample :
    ∃ e ∈ executeAttack 1 beam40Targets ⟨5, 2, 0⟩ jitter0,
      ∃ t, effectCompletionTime e = some t ∧ ATTACK_DURATION < t := by
  obtain ⟨e, he, t, ht, hge⟩ :=
    beam_last_delay ⟨5, 2, 0⟩ beam40Targets 0 (by simp [beam40Targets])
  refine ⟨e, by simpa [executeAttack] using he, t, ht, ?_⟩
  have hlen : ((beam40Targets.length : ℕ) : ℚ) = 40 := by
    norm_num [beam40Targets]
  rw [hlen] at hge
  norm_num [ATTACK_DURATION]
  linarith

/-- C6 (amended): the fixed 2000 ms Attack-phase dwell strictly exceeds
every generated effect's scheduled completion time for the ChainedArc
variant (1100 ms) and the HomingSwarm variant (800 ms) on every snapshot,
and for the PrecisionBeam variant exactly on snapshots of at most 38
targets; for RapidBurst (distance-dependent motion, and start delays that
alone reach the dwell at 61 targets) and for PrecisionBeam beyond 38
targets no such guarantee holds. -/
theorem c6_dwell_amended (targets : List Enemy) (o : Vec3) (jitter : ℕ → ℕ → Vec3)
    (v : ℕ) (hv : v = 2 ∨ v = 3 ∨ (v = 1 ∧ targets.length ≤ 38)) :
    ∀ e ∈ executeAttack v targets o jitter,
      ∃ t, effectCompletionTime e = some t ∧ t < ATTACK_DURATION := by
  intro e he
  rcases hv with rfl | rfl | ⟨rfl, hlen⟩
  · simp only [executeAttack] at he
    split at he
    · simp only [List.mem_singleton] at he
      subst he
      norm_num [effectCompletionTime, LIGHTNING_CHAIN_DURATION, ATTACK_DURATION]
    · simp at he
  · exact ⟨800, missile_completion o targets 0 e he,
      by norm_num [ATTACK_DURATION]⟩
  · obtain ⟨t, ht, hlt⟩ := beam_completion o targets 0 e he
    refine ⟨t, ht, ?_⟩
    have hq : ((targets.length : ℕ) : ℚ) ≤ 38 := by exact_mod_cast hlen
    norm_num [ATTACK_DURATION] at hlt ⊢
    linarith

/-- C6 witness: for a single-target PrecisionBeam activation, the sole
beam descriptor's completion time (100 ms) is below the 2000 ms dwell. -/
theorem c6_dwell_amended_witness :
    ∃ t, effectCompletionTime
        (AttackEffect.beam ("beam-" ++ toString 0) ⟨5, 2, 0⟩ ⟨0, 0, -30⟩
          (((0 : ℕ) : ℚ) * 50) BEAM_LOCK_DURATION) = some t ∧
      t < ATTACK_DURATION :=
  c6_dwell_amended [⟨"a", ⟨0, 0, -30⟩⟩] ⟨5, 2, 0⟩ jitter0 1
    (Or.inr (Or.inr ⟨rfl, by norm_num⟩)) _
    (by simp [executeAttack, beamEffects])

theorem gatlingPosAfter_closed (k : ℕ) :
    gatlingPosAfter ⟨0, 0, 0⟩ ⟨0, 0, -1⟩ (1 / 20) k = ⟨0, 0, -(6 * (k : ℚ))⟩ := by
  induction k with
  | zero => simp [gatlingPosAfter]
  | succ n ih =>
      simp only [gatlingPosAfter, gatlingFrameUpdate, ih, Vec3.add, Vec3.smul,
        GATLING_SPEED, Vec3.mk.injEq]
      refine ⟨by ring, by ring, ?_⟩
      push_cast
      ring

/-- C3 (evaluation of the code at the failing input): a gatling projectile
fired from the origin at a target 9 units away along -z, advanced by the
code's per-frame update at a constant 50 ms frame time (20 fps, step
`120 · 1/20 = 6` units), is never within the 2-unit completion threshold
on any frame — its squared distance to the target stays ≥ 4 (indeed ≥ 9)
forever, so `onComplete` is never invoked and the instance is never
removed by completion. -/
theorem c3_gatling_never_completes (k : ℕ) :
    4 ≤ Vec3.distSq (gatlingPosAfter ⟨0, 0, 0⟩ ⟨0, 0, -1⟩ (1 / 20) k) ⟨0, 0, -9⟩ := by
  rw [gatlingPosAfter_closed k]
  unfold Vec3.distSq
  dsimp only
  rcases Nat.lt_or_ge k 2 with hk | hk
  · interval_cases k <;> norm_num
  · have h2 : (2 : ℚ) ≤ (k : ℚ) := by exact_mod_cast hk
    have h3 : (0 : ℚ) ≤ 6 * (k : ℚ) - 12 := by linarith
    nlinarith [sq_nonneg (6 * (k : ℚ) - 12)]

theorem digitVal_digitChar (d : ℕ) (hd : d < 10) :
    digitVal (Nat.digitChar d) = d := by
  interval_cases d <;> rfl

theorem jsParseInt_natDecimal (n : ℕ) : jsParseInt (natDecimal n) = n := by
  unfold jsParseInt natDecimal
  rw [List.map_reverse, List.reverse_reverse, List.map_map]
  have h : (Nat.digits 10 n).map (digitVal ∘ Nat.digitChar) =
      (Nat.digits 10 n).map id := by
    apply List.map_congr_left
    intro d hd
    exact digitVal_digitChar d (Nat.digits_lt_base (by norm_num) hd)
  rw [h, List.map_id, Nat.ofDigits_digits]

/-- C10: both elimination-burst creators embed the creation timestamp as
the second dash-separated token of the artifact id, and one poll of the
100 ms-interval cleanup sweeper retains an artifact exactly when fewer
than 600 ms have elapsed since that embedded timestamp (parsed back out of
the id). -/
theorem c10_explosion_cleanup (ts : ℕ) (randomTokens : List (List Char))
    (pos pos2 : Vec3) (color : String) (i : ℕ) (now : ℕ) :
    (effectCompleteArtifact ts randomTokens pos color).idTokens.getD 1 [] = natDecimal ts ∧
    (lightningArtifact ts i pos2).idTokens.getD 1 [] = natDecimal ts ∧
    (cleanupKeep now (effectCompleteArtifact ts randomTokens pos color) = true ↔
      now - ts < 600) ∧
    (cleanupKeep now (lightningArtifact ts i pos2) = true ↔ now - ts < 600) ∧
    cleanupSweep now [effectCompleteArtifact ts randomTokens pos color] =
      (if now - ts < 600 then [effectCompleteArtifact ts randomTokens pos color] else []) ∧
    CLEANUP_POLL_MS = 100 := by
  have hk : ∀ e : ExplosionArtifact, e.idTokens.getD 1 [] = natDecimal ts →
      (cleanupKeep now e = true ↔ now - ts < 600) := by
    intro e he
    have he2 : e.idTokens[1]?.getD [] = natDecimal ts := by
      simpa [List.getD] using he
    simp [cleanupKeep, List.getD, he2, jsParseInt_natDecimal]
  have h1 : (effectCompleteArtifact ts randomTokens pos color).idTokens.getD 1 [] =
      natDecimal ts := rfl
  have h2 : (lightningArtifact ts i pos2).idTokens.getD 1 [] = natDecimal ts := rfl
  refine ⟨h1, h2, hk _ h1, hk _ h2, ?_, rfl⟩
  by_cases hold : now - ts < 600
  · rw [if_pos hold]
    simp [cleanupSweep, List.filter, (hk _ h1).mpr hold]
  · rw [if_neg hold]
    have : cleanupKeep now (effectCompleteArtifact ts randomTokens pos color) = false := by
      rcases hb : cleanupKeep now (effectCompleteArtifact ts randomTokens pos color)
      · rfl
      · exact absurd ((hk _ h1).mp hb) hold
    simp [cleanupSweep, List.filter, this]

end Wingman
